import Mathlib

/-!
Shallow embedding of the PGM transport receive path
(src/openpgm/pgm/recv.c).

Collaborator functions that live outside recv.c (the wire parsers, the
per-peer receive-window handlers, the timer, flushing of pending peers,
the socket) are modelled as oracle inputs supplied by the environment in
an explicit script; every definition that is taken from the spec rather
than from a file under the sources says so in its doc comment.
-/

namespace OpenPgm

/-- PGM packet types handled by the receive dispatcher (RFC 3208). -/
inductive PgmType
  | spm
  | poll
  | polr
  | odata
  | rdata
  | nak
  | nnak
  | ncf
  | spmr
deriving DecidableEq

/-- Transport session identifier: global source identifier plus source
port (`pgm_tsi_t`).  The 6-byte GSI is abstracted as a `Nat`. -/
structure TSI where
  gsi : Nat
  sport : Nat
deriving DecidableEq

/-- A known remote source (`pgm_peer_t`): its TSI, addresses, statistics
counters and last-packet timestamp.  Addresses are abstracted as `Nat`. -/
structure Peer where
  tsi : TSI
  nla : Nat
  localNla : Nat
  bytesReceived : Nat
  rxPacketsDiscarded : Nat
  lastPacket : Nat
  groupNla : Nat
deriving DecidableEq

/-- The transport endpoint (`pgm_transport_t`), restricted to the fields
that the receive path of recv.c reads or writes.  The receive buffer is
represented by an identifier `rxBuffer` and its size `rxBufferSize`;
`allocCounter` is the next fresh buffer identifier, so a freshly
allocated buffer is always distinct from any live one whose identifier
is below the counter. -/
structure Transport where
  isBound : Bool
  isDestroyed : Bool
  isReset : Bool
  isAbortOnReset : Bool
  canSendData : Bool
  canRecvData : Bool
  tsi : TSI
  dport : Nat
  udpEncapUcastPort : Nat
  maxTpdu : Nat
  peers : List (TSI × Peer)
  peersPending : List TSI
  rxBuffer : Nat
  rxBufferSize : Nat
  allocCounter : Nat
  srcPacketsDiscarded : Nat
  srcCksumErrors : Nat
  isPendingRead : Bool
  isEdgeTriggeredRecv : Bool
deriving DecidableEq

/-- One parsed PGM frame as seen by `on_pgm`: the parsed header fields
(`pgm_dport`, the TSI whose `sport` component is the header source
port), the skb length at dispatch time, the receive timestamp, and the
recovered source and destination addresses. -/
structure Frame where
  ptype : PgmType
  dport : Nat
  tsi : TSI
  len : Nat
  tstamp : Nat
  srcAddr : Nat
  dstAddr : Nat
  dstIsMulticast : Bool
deriving DecidableEq

/-- Modelled from the spec: `pgm_is_downstream` (packet.h, not under the
given sources) holds for the downstream-designated types
{ODATA, RDATA, NCF, SPM, POLL}. -/
def pgm_is_downstream (t : PgmType) : Bool :=
  decide (t = .odata ∨ t = .rdata ∨ t = .ncf ∨ t = .spm ∨ t = .poll)

/-- Modelled from the spec: `pgm_is_upstream` (packet.h, not under the
given sources) holds for the upstream-capable types
{NAK, NNAK, SPMR, POLR}. -/
def pgm_is_upstream (t : PgmType) : Bool :=
  decide (t = .nak ∨ t = .nnak ∨ t = .spmr ∨ t = .polr)

/-- Modelled from the spec: `pgm_is_peer` (packet.h, not under the given
sources) holds for the peer-capable types {NAK, SPMR}. -/
def pgm_is_peer (t : PgmType) : Bool :=
  decide (t = .nak ∨ t = .spmr)

/-- Lookup in the peer mapping (`g_hash_table_lookup` on
`peers_hashtable`, keyed by TSI). -/
def lookupPeer : List (TSI × Peer) → TSI → Option Peer
  | [], _ => none
  | (k, p) :: rest, key => if k = key then some p else lookupPeer rest key

/-- Update the peer bound to a TSI in the mapping (mutation of the peer
object through its pointer in the C code). -/
def updatePeer (ps : List (TSI × Peer)) (key : TSI) (f : Peer → Peer) :
    List (TSI × Peer) :=
  ps.map (fun kp => if kp.1 = key then (kp.1, f kp.2) else kp)

/-- Modelled from the spec: `pgm_new_peer` (receiver.c, not under the
given sources) creates a peer for the TSI from the source and
destination addresses and inserts it into the peer mapping under the
exclusive lock. -/
def pgm_new_peer (t : Transport) (key : TSI) (srcAddr dstAddr : Nat) :
    Transport × Peer :=
  let p : Peer :=
    { tsi := key, nla := srcAddr, localNla := dstAddr, bytesReceived := 0,
      rxPacketsDiscarded := 0, lastPacket := 0, groupNla := 0 }
  ({ t with peers := (key, p) :: t.peers }, p)

/-- Increment the cumulative counter `PGM_PC_SOURCE_PACKETS_DISCARDED`. -/
def bumpSourceDiscarded (t : Transport) : Transport :=
  { t with srcPacketsDiscarded := t.srcPacketsDiscarded + 1 }

/-- Shared `out_discarded` epilogue of `on_peer` and `on_downstream`:
when the source slot holds a peer, bump that peer's
`PGM_PC_RECEIVER_PACKETS_DISCARDED`; otherwise bump the transport
source counter if `can_send_data`.  (The slot is the `source` out
parameter; peers are never removed, so a bound TSI is in the mapping.) -/
def outDiscarded (t : Transport) (slot : Option TSI) : Transport :=
  match slot with
  | some key =>
      let ps := updatePeer t.peers key
        (fun p => { p with rxPacketsDiscarded := p.rxPacketsDiscarded + 1 })
      { t with peers := ps }
  | none => if t.canSendData then bumpSourceDiscarded t else t

/-- `on_upstream` (recv.c): NAK/NNAK/SPMR addressed to this transport as
a source.  The boolean `acc` is the oracle result of the collaborator
call (`pgm_on_nak`, `pgm_on_nnak` or `pgm_on_spmr`) actually reached.
Every discard path bumps the source discard counter unconditionally. -/
def on_upstream (t : Transport) (skb : Frame) (acc : Bool) :
    Transport × Bool :=
  if t.canSendData = false then (bumpSourceDiscarded t, false)
  else if skb.tsi.sport ≠ t.dport then (bumpSourceDiscarded t, false)
  else if skb.tsi.gsi ≠ t.tsi.gsi then (bumpSourceDiscarded t, false)
  else
    match skb.ptype with
    | .nak => if acc then (t, true) else (bumpSourceDiscarded t, false)
    | .nnak => if acc then (t, true) else (bumpSourceDiscarded t, false)
    | .spmr => if acc then (t, true) else (bumpSourceDiscarded t, false)
    | _ => (bumpSourceDiscarded t, false)

/-- `on_peer` (recv.c): peer-to-peer NAK/SPMR about a third-party
source.  `slot` is the `source` out parameter as passed in (it keeps
its previous contents until the lookup assigns it); `acc` is the oracle
result of the collaborator call reached. -/
def on_peer (t : Transport) (skb : Frame) (slot : Option TSI) (acc : Bool) :
    Transport × Option TSI × Bool :=
  if t.canRecvData = false then (outDiscarded t slot, slot, false)
  else if skb.tsi.sport ≠ t.dport then (outDiscarded t slot, slot, false)
  else
    match lookupPeer t.peers skb.tsi with
    | none => (outDiscarded t none, none, false)
    | some _ =>
      match skb.ptype with
      | .nak =>
          if acc then (t, some skb.tsi, true)
          else (outDiscarded t (some skb.tsi), some skb.tsi, false)
      | .spmr =>
          if acc then (t, some skb.tsi, true)
          else (outDiscarded t (some skb.tsi), some skb.tsi, false)
      | _ => (outDiscarded t (some skb.tsi), some skb.tsi, false)

/-- `on_downstream` (recv.c): ODATA/RDATA/NCF/SPM from a remote source.
Creates the peer on first sight, updates its statistics, dispatches by
type, and replaces `rx_buffer` with a fresh allocation of size
`max_tpdu` exactly when an ODATA/RDATA skb is retained by the receive
window.  `acc` is the oracle result of the collaborator call reached
(`pgm_on_data`, `pgm_on_ncf` or `pgm_on_spm`). -/
def on_downstream (t : Transport) (skb : Frame) (slot : Option TSI)
    (acc : Bool) : Transport × Option TSI × Bool :=
  if t.canRecvData = false then (outDiscarded t slot, slot, false)
  else if skb.dport ≠ t.dport then (outDiscarded t slot, slot, false)
  else
    let t1 :=
      match lookupPeer t.peers skb.tsi with
      | some _ => t
      | none => (pgm_new_peer t skb.tsi skb.srcAddr skb.dstAddr).1
    let ps2 := updatePeer t1.peers skb.tsi
      (fun p => { p with bytesReceived := p.bytesReceived + skb.len,
                         lastPacket := skb.tstamp })
    let t2 := { t1 with peers := ps2 }
    match skb.ptype with
    | .odata =>
        if acc then
          ({ t2 with rxBuffer := t2.allocCounter,
                     rxBufferSize := t2.maxTpdu,
                     allocCounter := t2.allocCounter + 1 },
           some skb.tsi, true)
        else (outDiscarded t2 (some skb.tsi), some skb.tsi, false)
    | .rdata =>
        if acc then
          ({ t2 with rxBuffer := t2.allocCounter,
                     rxBufferSize := t2.maxTpdu,
                     allocCounter := t2.allocCounter + 1 },
           some skb.tsi, true)
        else (outDiscarded t2 (some skb.tsi), some skb.tsi, false)
    | .ncf =>
        if acc then (t2, some skb.tsi, true)
        else (outDiscarded t2 (some skb.tsi), some skb.tsi, false)
    | .spm =>
        if acc then
          (if skb.dstIsMulticast then
            let ps3 := updatePeer t2.peers skb.tsi
              (fun p => { p with groupNla := skb.dstAddr })
            { t2 with peers := ps3 }
           else t2, some skb.tsi, true)
        else (outDiscarded t2 (some skb.tsi), some skb.tsi, false)
    | _ => (outDiscarded t2 (some skb.tsi), some skb.tsi, false)

/-- `on_pgm` (recv.c): route one parsed frame to the downstream,
upstream or peer handler, or discard it. -/
def on_pgm (t : Transport) (skb : Frame) (slot : Option TSI) (acc : Bool) :
    Transport × Option TSI × Bool :=
  if pgm_is_downstream skb.ptype then on_downstream t skb slot acc
  else if skb.dport = t.tsi.sport then
    if pgm_is_upstream skb.ptype || pgm_is_peer skb.ptype then
      let r := on_upstream t skb acc
      (r.1, none, r.2)
    else ((if t.canSendData then bumpSourceDiscarded t else t), slot, false)
  else if pgm_is_peer skb.ptype then on_peer t skb slot acc
  else ((if t.canSendData then bumpSourceDiscarded t else t), slot, false)

/-- Outcome of the wire parser (`pgm_parse_udp_encap` / `pgm_parse_raw`,
collaborators): valid, invalid with checksum error code, or invalid
with any other error code. -/
inductive ParseResult
  | ok
  | badCksum
  | badOther
deriving DecidableEq

/-- One datagram successfully read by `recvskb` together with the oracle
answers of the collaborators consulted while processing it: the parse
outcome, the result of the one receive-window handler reached, and
whether `pgm_peer_has_pending` reports contiguous data afterwards. -/
structure Pkt where
  parse : ParseResult
  frame : Frame
  acc : Bool
  hasPending : Bool
deriving DecidableEq

/-- Frame processing inside `pgm_recvmsgv` (recv.c): parse the datagram,
count parse failures against the source counters when `can_send_data`,
and hand valid frames to `on_pgm`. -/
def processPkt (t : Transport) (slot : Option TSI) (p : Pkt) :
    Transport × Option TSI × Bool :=
  match p.parse with
  | .badCksum =>
      (if t.canSendData then
        bumpSourceDiscarded { t with srcCksumErrors := t.srcCksumErrors + 1 }
       else t, slot, false)
  | .badOther => (if t.canSendData then bumpSourceDiscarded t else t, slot, false)
  | .ok => on_pgm t p.frame slot p.acc

/-- A run of frame processings: the sequence of datagrams read by
`recvskb` across delivery calls, threaded through `processPkt` together
with the dispatcher source slot. -/
def processRun : Transport → Option TSI → List Pkt → Transport × Option TSI
  | t, slot, [] => (t, slot)
  | t, slot, p :: ps =>
      processRun (processPkt t slot p).1 (processPkt t slot p).2.1 ps

/-- Whether a frame reaching `on_upstream` is accepted by it. -/
def upstreamAccepts (t : Transport) (skb : Frame) (acc : Bool) : Bool :=
  t.canSendData && decide (skb.tsi.sport = t.dport) &&
  decide (skb.tsi.gsi = t.tsi.gsi) &&
  (match skb.ptype with
   | .nak => acc
   | .nnak => acc
   | .spmr => acc
   | _ => false)

/-- The exact condition under which processing one frame increments
`PGM_PC_SOURCE_PACKETS_DISCARDED`: parse failures and classifier
discards count when `can_send_data`; frames rejected by the upstream
handler count unconditionally; frames rejected by the downstream or
peer handler count only when the source slot is empty at the rejection
point and `can_send_data` holds (otherwise the bound peer's receiver
counter is bumped instead). -/
def pktBumpsSourceDiscarded (t : Transport) (slot : Option TSI) (p : Pkt) :
    Bool :=
  match p.parse with
  | .badCksum => t.canSendData
  | .badOther => t.canSendData
  | .ok =>
    let skb := p.frame
    if pgm_is_downstream skb.ptype then
      (!t.canRecvData || decide (skb.dport ≠ t.dport)) && slot.isNone &&
        t.canSendData
    else if skb.dport = t.tsi.sport then
      if pgm_is_upstream skb.ptype || pgm_is_peer skb.ptype then
        !upstreamAccepts t skb p.acc
      else t.canSendData
    else if pgm_is_peer skb.ptype then
      if !t.canRecvData || decide (skb.tsi.sport ≠ t.dport) then
        slot.isNone && t.canSendData
      else
        match lookupPeer t.peers skb.tsi with
        | none => t.canSendData
        | some _ => false
    else t.canSendData

/-- Count, along a run, the frames whose processing increments the
source discard counter. -/
def countSourceBumps : Transport → Option TSI → List Pkt → Nat
  | _, _, [] => 0
  | t, slot, p :: ps =>
      (if pktBumpsSourceDiscarded t slot p then 1 else 0) +
      countSourceBumps (processPkt t slot p).1 (processPkt t slot p).2.1 ps

/-- The counting rule exactly as claim C5 words it: a frame counts iff
it was rejected by parsing, classification, the upstream handler or the
downstream handler while `can_send_data` is true. -/
def claimBumpsSourceDiscarded (t : Transport) (slot : Option TSI) (p : Pkt) :
    Bool :=
  t.canSendData &&
  (match p.parse with
   | .badCksum => true
   | .badOther => true
   | .ok =>
     let skb := p.frame
     if pgm_is_downstream skb.ptype then !(on_downstream t skb slot p.acc).2.2
     else if skb.dport = t.tsi.sport then
       if pgm_is_upstream skb.ptype || pgm_is_peer skb.ptype then
         !(on_upstream t skb p.acc).2
       else true
     else if pgm_is_peer skb.ptype then false
     else true)

/-- Count along a run with the rule of claim C5. -/
def claimCountSourceBumps : Transport → Option TSI → List Pkt → Nat
  | _, _, [] => 0
  | t, slot, p :: ps =>
      (if claimBumpsSourceDiscarded t slot p then 1 else 0) +
      claimCountSourceBumps (processPkt t slot p).1 (processPkt t slot p).2.1 ps

/-- Routing outcome of the frame classifier. -/
inductive Route
  | downstream
  | upstream
  | peer
  | discard
deriving DecidableEq

/-- The classification rule exactly as claim C4 words it: downstream iff
the type is in {ODATA, RDATA, NCF, SPM, POLL}; otherwise upstream iff
the header dport equals the transport source port and the type is
upstream- or peer-capable; otherwise peer iff the dport differs and the
type is peer-capable {NAK, SPMR}; otherwise discard. -/
def claimClassify (t : Transport) (f : Frame) : Route :=
  if f.ptype = .odata ∨ f.ptype = .rdata ∨ f.ptype = .ncf ∨
     f.ptype = .spm ∨ f.ptype = .poll then .downstream
  else if f.dport = t.tsi.sport ∧
      ((f.ptype = .nak ∨ f.ptype = .nnak ∨ f.ptype = .spmr ∨ f.ptype = .polr) ∨
       (f.ptype = .nak ∨ f.ptype = .spmr)) then .upstream
  else if f.dport ≠ t.tsi.sport ∧ (f.ptype = .nak ∨ f.ptype = .spmr) then .peer
  else .discard

/-- Ancillary control messages delivered with a datagram, restricted to
the kinds `recvskb` inspects. -/
inductive CMsgKind
  | ipPktInfo (addr : Nat)
  | ipv6PktInfo (addr : Nat) (ifIndex : Nat)
  | other
deriving DecidableEq

/-- The control-message scan of `recvskb`: the first IPv4 or IPv6
packet-info message, if any (the loop breaks at the first match). -/
def findPktInfo : List CMsgKind → Option CMsgKind
  | [] => none
  | .ipPktInfo a :: _ => some (.ipPktInfo a)
  | .ipv6PktInfo a i :: _ => some (.ipv6PktInfo a i)
  | .other :: rest => findPktInfo rest

/-- Address family constant AF_INET6 (Linux). -/
def AF_INET6 : Nat := 10

/-- `recvskb` (recv.c), returning the value the function returns: the
datagram length, or -1 when destination recovery was demanded and no
packet-info control message was present.  The condition as written in
the source evaluates `pgm_sockaddr_family (&src_addr)`, i.e. reads the
family field through the address of the `src_addr` pointer variable
itself; `ptrBitsFamily` is the value those pointer bits yield, which is
unrelated to the received source address. -/
def recvskb (udpEncapUcastPort ptrBitsFamily : Nat) (cmsgs : List CMsgKind)
    (recvLen : Int) : Int :=
  if udpEncapUcastPort ≠ 0 ∨ ptrBitsFamily = AF_INET6 then
    match findPktInfo cmsgs with
    | none => -1
    | some _ => recvLen
  else recvLen

/-- Modelled from the spec: the intended `recvskb` condition uses the
address family of the received source address (`srcFamily`), so that
destination recovery is mandatory for UDP-encapsulated sockets and for
IPv6 source addresses. -/
def recvskb_intended (udpEncapUcastPort srcFamily : Nat)
    (cmsgs : List CMsgKind) (recvLen : Int) : Int :=
  if udpEncapUcastPort ≠ 0 ∨ srcFamily = AF_INET6 then
    match findPktInfo cmsgs with
    | none => -1
    | some _ => recvLen
  else recvLen

/-- Errno constant returned by `wait_for_event` for readable data. -/
def EAGAIN : Nat := 11

/-- Errno constant returned by `wait_for_event` for a timer or state
event. -/
def EINTR : Nat := 4

/-- Errno constant returned by `wait_for_event` for a libc error. -/
def EFAULT : Nat := 14

/-- The completed outcome of one `wait_for_event` blocking attempt:
whether descriptor-set construction failed, whether the poll/select
syscall failed, the number of ready descriptors it reported, whether
the receive socket was among them (`fds[0].revents` in the poll build,
`FD_ISSET` on `recv_sock` in the select build), and whether some
non-socket descriptor was readable (not inspected by the code). -/
structure WaitIn where
  infoFail : Bool
  syscallFail : Bool
  ready : Nat
  socketReadable : Bool
  otherReadable : Bool
deriving DecidableEq

/-- `wait_for_event` (recv.c), as a function of the completed poll or
select outcome: EFAULT on descriptor-set or syscall failure, EAGAIN
when descriptors are ready and the receive socket has an event, EINTR
otherwise. -/
def wait_for_event (w : WaitIn) : Nat :=
  if w.infoFail then EFAULT
  else if w.syscallFail then EFAULT
  else if 0 < w.ready ∧ w.socketReadable then EAGAIN
  else EINTR

/-- The delivery flags of interest (`MSG_DONTWAIT`, `MSG_ERRQUEUE`,
`MSG_FIN`), modelled as independent bits. -/
structure Flags where
  dontwait : Bool
  errqueue : Bool
  fin : Bool
deriving DecidableEq

/-- One entry of the caller's message vector: an APDU (the TSI of its
source and the lengths of the skbs composing it) or a reset
descriptor. -/
inductive MsgEntry
  | apdu (tsi : TSI) (skbLens : List Nat)
  | resetDesc (tsi : TSI)
deriving DecidableEq

/-- Modelled from the spec: `pgm_set_reset_error` (receiver.c, not
under the given sources) writes a reset descriptor naming the peer into
`msg_start`, i.e. into the first entry of the caller's vector. -/
def pgm_set_reset_error (v : List MsgEntry) (key : TSI) : List MsgEntry :=
  .resetDesc key :: v.drop 1

/-- Oracle outcome of one `pgm_flush_peers_pending` call (receiver.c,
collaborator): the APDUs it wrote into the vector, the pending list it
leaves behind, and whether it reported the vector full (its non-zero
return). -/
structure FlushRes where
  apdus : List (TSI × List Nat)
  remainingPending : List TSI
  filled : Bool
deriving DecidableEq

/-- Oracle effect of one `pgm_timer_dispatch` call (timer.c,
collaborator).  Modelled from the spec: dispatch may enqueue data and
mark peers pending, and timer-driven reset detection may set
`is_reset`. -/
structure TimerEff where
  addPending : List TSI
  setReset : Bool
deriving DecidableEq

/-- Oracle outcome of one `recvskb` call inside the delivery loop:
negative length, zero length (closed socket), or a datagram. -/
inductive RecvRes
  | fail
  | closed
  | pkt (len : Nat) (p : Pkt)
deriving DecidableEq

/-- Oracle outcome of one `wait_for_event` call inside the delivery
loop, with the timer-dispatch effect run on EINTR. -/
inductive WaitRes
  | again
  | intr (eff : TimerEff)
  | fault
deriving DecidableEq

/-- The GIOStatus values the receive API returns. -/
inductive GIOStatus
  | error
  | normal
  | eof
  | again
deriving DecidableEq

/-- The GError produced by a delivery call, when any. -/
inductive RecvGError
  | connReset (tsi : TSI)
  | waitFailed
deriving DecidableEq

/-- The observable outcome of one `pgm_recvmsgv` call: its status, the
transport state it leaves, the caller's message vector, the final
`bytes_read` and `data_read`, and the error out-parameter. -/
structure Result where
  status : GIOStatus
  t : Transport
  vector : List MsgEntry
  bytesRead : Nat
  dataRead : Nat
  err : Option RecvGError
deriving DecidableEq

/-- The local state of the `pgm_recvmsgv` loop: transport, the `source`
slot, the accumulators `bytes_read`, `data_read` and `bytes_received`,
the entries written so far, and whether the last `recvskb` length was
positive. -/
structure LoopSt where
  t : Transport
  slot : Option TSI
  bytesRead : Nat
  dataRead : Nat
  bytesReceived : Nat
  written : List MsgEntry
  lenPos : Bool
deriving DecidableEq

/-- The environment script of one `pgm_recvmsgv` call: the initial value
of the uninitialised `source` local, the timer-dispatch effect if
`pgm_timer_check` fires on entry, the successive collaborator outcomes,
and fuel bounding the number of loop-state transitions. -/
structure Script where
  slot0 : Option TSI
  timer0 : Option TimerEff
  recvs : List RecvRes
  flushes : List FlushRes
  waits : List WaitRes
  fuel : Nat
deriving DecidableEq

/-- Apply one timer-dispatch effect to the transport. -/
def applyTimer (t : Transport) (eff : TimerEff) : Transport :=
  { t with peersPending := t.peersPending ++ eff.addPending,
           isReset := t.isReset || eff.setReset }

/-- Modelled from the spec: apply one `pgm_flush_peers_pending` outcome
to the loop state: append the flushed APDUs to the caller's vector and
advance `bytes_read`, `data_read` and the vector cursor accordingly. -/
def applyFlush (st : LoopSt) (f : FlushRes) : LoopSt :=
  { st with
      written := st.written ++ f.apdus.map (fun a => MsgEntry.apdu a.1 a.2),
      dataRead := st.dataRead + f.apdus.length,
      bytesRead := st.bytesRead + (f.apdus.map (fun a => a.2.sum)).sum,
      t := { st.t with peersPending := f.remainingPending } }

/-- The pending-read notification update performed on the Normal exit
path while `peers_pending` is non-empty: drain on edge-triggered mode,
signal on level-triggered mode. -/
def notifyEdge (t : Transport) : Transport :=
  if t.isPendingRead && t.isEdgeTriggeredRecv then
    { t with isPendingRead := false }
  else if !t.isPendingRead && !t.isEdgeTriggeredRecv then
    { t with isPendingRead := true }
  else t

/-- The `out:` label of `pgm_recvmsgv`: with no APDU delivered, clear
the notification and either report a pending reset as EOF or return
AGAIN; with APDUs delivered, adjust the notification edge and return
NORMAL.  `none` models a failed `g_assert` (reset with empty pending
list). -/
def outPhase (flags : Flags) (st : LoopSt) : Option Result :=
  if st.dataRead = 0 then
    let t1 := if st.t.isPendingRead then { st.t with isPendingRead := false }
              else st.t
    if t1.isReset then
      match t1.peersPending with
      | [] => none
      | key :: _ =>
        let v := if flags.errqueue then pgm_set_reset_error st.written key
                 else st.written
        let e := if flags.errqueue then none
                 else some (RecvGError.connReset key)
        let t2 := if !t1.isAbortOnReset then { t1 with isReset := !t1.isReset }
                  else t1
        some { status := .eof, t := t2, vector := v,
               bytesRead := st.bytesRead, dataRead := st.dataRead, err := e }
    else
      some { status := .again, t := t1, vector := st.written,
             bytesRead := st.bytesRead, dataRead := st.dataRead, err := none }
  else
    let t1 := if st.t.peersPending.isEmpty then st.t else notifyEdge st.t
    some { status := .normal, t := t1, vector := st.written,
           bytesRead := st.bytesRead, dataRead := st.dataRead, err := none }

/-- Control points of the `goto` state machine of `pgm_recvmsgv`. -/
inductive Phase
  | recvAgain
  | flushPending
  | checkRepeat
  | out
deriving DecidableEq

/-- The `goto` loop of `pgm_recvmsgv` (labels `recv_again`,
`flush_pending`, `check_for_repeat`, `out`), driven by the collaborator
outcome script.  `none` models an exhausted script or fuel. -/
def runLoop (flags : Flags) (msgLen : Nat) :
    Nat → Phase → LoopSt → List RecvRes → List FlushRes → List WaitRes →
    Option Result
  | 0, _, _, _, _, _ => none
  | fuel + 1, ph, st, recvs, flushes, waits =>
    match ph with
    | .recvAgain =>
      match recvs with
      | [] => none
      | .fail :: recvs' =>
          runLoop flags msgLen fuel .checkRepeat { st with lenPos := false }
            recvs' flushes waits
      | .closed :: recvs' =>
          runLoop flags msgLen fuel .out { st with lenPos := false }
            recvs' flushes waits
      | .pkt len p :: recvs' =>
          let st1 := { st with lenPos := true,
                               bytesReceived := st.bytesReceived + len }
          let r := processPkt st1.t st1.slot p
          let st2 := { st1 with t := r.1, slot := r.2.1 }
          if r.2.2 then
            let st3 :=
              match r.2.1 with
              | some key =>
                  if p.hasPending then
                    { st2 with t := { st2.t with
                        peersPending := st2.t.peersPending ++ [key] } }
                  else st2
              | none => st2
            runLoop flags msgLen fuel .flushPending st3 recvs' flushes waits
          else
            runLoop flags msgLen fuel .recvAgain st2 recvs' flushes waits
    | .flushPending =>
      if st.t.peersPending.isEmpty then
        runLoop flags msgLen fuel .checkRepeat st recvs flushes waits
      else
        match flushes with
        | [] => none
        | f :: flushes' =>
          let st' := applyFlush st f
          if f.filled then
            runLoop flags msgLen fuel .out st' recvs flushes' waits
          else
            runLoop flags msgLen fuel .checkRepeat st' recvs flushes' waits
    | .checkRepeat =>
      if flags.dontwait then
        if st.lenPos && st.dataRead < msgLen then
          runLoop flags msgLen fuel .recvAgain st recvs flushes waits
        else
          runLoop flags msgLen fuel .out st recvs flushes waits
      else
        if st.dataRead = 0 then
          match waits with
          | [] => none
          | .again :: waits' =>
              runLoop flags msgLen fuel .recvAgain st recvs flushes waits'
          | .intr eff :: waits' =>
              runLoop flags msgLen fuel .flushPending
                { st with t := applyTimer st.t eff } recvs flushes waits'
          | .fault :: _ =>
              some { status := .error, t := st.t, vector := st.written,
                     bytesRead := st.bytesRead, dataRead := st.dataRead,
                     err := some .waitFailed }
        else
          runLoop flags msgLen fuel .out st recvs flushes waits
    | .out => outPhase flags st

/-- The `pgm_timer_check`/`pgm_timer_dispatch` step at the entry of the
delivery call: apply the dispatch effect when the timer fires. -/
def applyTimer0 (t : Transport) (timer0 : Option TimerEff) : Transport :=
  match timer0 with
  | some eff => applyTimer t eff
  | none => t

/-- The body of `pgm_recvmsgv` after the reset fast path: the entry
timer dispatch, the initial flush of already-pending peers, and the
delivery loop. -/
def recvmsgvLoop (t : Transport) (msgLen : Nat) (flags : Flags)
    (sc : Script) : Option Result :=
  let t0 := applyTimer0 t sc.timer0
  let st0 : LoopSt :=
    { t := t0, slot := sc.slot0, bytesRead := 0, dataRead := 0,
      bytesReceived := 0, written := [], lenPos := false }
  if t0.peersPending.isEmpty then
    runLoop flags msgLen sc.fuel .recvAgain st0 sc.recvs sc.flushes sc.waits
  else
    match sc.flushes with
    | [] => none
    | f :: flushes' =>
      let st1 := applyFlush st0 f
      if f.filled then outPhase flags st1
      else runLoop flags msgLen sc.fuel .recvAgain st1 sc.recvs flushes'
             sc.waits

/-- `pgm_recvmsgv` (recv.c): precondition checks, the reset fast path,
the entry timer dispatch, the initial flush of already-pending peers,
and the delivery loop. -/
def pgm_recvmsgv (t : Transport) (msgLen : Nat) (flags : Flags)
    (sc : Script) : Option Result :=
  if !t.isBound || t.isDestroyed then
    some { status := .error, t := t, vector := [], bytesRead := 0,
           dataRead := 0, err := none }
  else if t.isReset then
    match t.peersPending with
    | [] => none
    | key :: _ =>
      let v := if flags.errqueue then pgm_set_reset_error [] key else []
      let e := if flags.errqueue then none
               else some (RecvGError.connReset key)
      let t' := if !t.isAbortOnReset then { t with isReset := !t.isReset }
                else t
      some { status := .eof, t := t', vector := v, bytesRead := 0,
             dataRead := 0, err := e }
  else recvmsgvLoop t msgLen flags sc

/-- `pgm_recvmsg` (recv.c): `pgm_recvmsgv` with a vector of one entry. -/
def pgm_recvmsg (t : Transport) (flags : Flags) (sc : Script) :
    Option Result :=
  pgm_recvmsgv t 1 flags sc

/-- The flag mask applied by `pgm_recvfrom` before recursing:
`flags & ~(MSG_FIN | MSG_ERRQUEUE)`. -/
def stripFlags (f : Flags) : Flags :=
  { f with fin := false, errqueue := false }

/-- The copy loop of `pgm_recvfrom` over the skbs of the delivered
APDU: returns the final `(bytes_copied, bytes_read, truncation logged)`
triple, or `none` when the loop would walk past the skb array.  The
truncation branch writes `copy_len = len - bytes_copied` and
`bytes_read = len` exactly as the source. -/
def copyLoop : List Nat → Nat → Nat → Nat → Bool →
    Option (Nat × Nat × Bool)
  | [], _, bytesRead, bytesCopied, trunc =>
    if bytesCopied < bytesRead then none
    else some (bytesCopied, bytesRead, trunc)
  | l :: rest, len, bytesRead, bytesCopied, trunc =>
    if bytesCopied < bytesRead then
      if len < bytesCopied + l then
        copyLoop rest len len (bytesCopied + (len - bytesCopied)) true
      else
        copyLoop rest len bytesRead (bytesCopied + l) trunc
    else some (bytesCopied, bytesRead, trunc)

/-- The observable outcome of one `pgm_recvfrom` call. -/
structure RecvfromRes where
  status : GIOStatus
  bytesRead : Nat
  fromTsi : Option TSI
  truncated : Bool
  t : Transport
deriving DecidableEq

/-- `pgm_recvfrom` (recv.c): recurse through `pgm_recvmsg` with the FIN
and ERRQUEUE bits cleared, then linearise the first vector entry into
the caller's flat buffer of length `len`, truncating with a logged
error when the APDU is larger. -/
def pgm_recvfrom (t : Transport) (len : Nat) (flags : Flags) (sc : Script) :
    Option RecvfromRes :=
  match pgm_recvmsg t (stripFlags flags) sc with
  | none => none
  | some r =>
    if r.status ≠ .normal then
      some { status := r.status, bytesRead := 0, fromTsi := none,
             truncated := false, t := r.t }
    else
      match r.vector with
      | .apdu key lens :: _ =>
        match copyLoop lens len r.bytesRead 0 false with
        | none => none
        | some (copied, _, trunc) =>
          some { status := .normal, bytesRead := copied, fromTsi := some key,
                 truncated := trunc, t := r.t }
      | _ => none

/-- `pgm_recv` (recv.c): `pgm_recvfrom` with `from = NULL`, so the
source TSI is not reported. -/
def pgm_recv (t : Transport) (len : Nat) (flags : Flags) (sc : Script) :
    Option RecvfromRes :=
  (pgm_recvfrom t len flags sc).map (fun r => { r with fromTsi := none })

/-- Whether a vector entry is an APDU (as opposed to a reset
descriptor). -/
def entryIsApdu : MsgEntry → Bool
  | .apdu _ _ => true
  | .resetDesc _ => false

/-- Every APDU a flush outcome delivers carries at least one byte. -/
def flushPos (f : FlushRes) : Bool :=
  f.apdus.all (fun a => 0 < a.2.sum)

/-- No wait outcome in the list carries a timer effect that sets
`is_reset`. -/
def waitsNoReset (ws : List WaitRes) : Bool :=
  ws.all (fun w => match w with
    | .intr eff => !eff.setReset
    | _ => true)

/-- The script contains no timer effect that sets `is_reset`. -/
def scriptNoReset (sc : Script) : Bool :=
  (match sc.timer0 with
   | some eff => !eff.setReset
   | none => true) && waitsNoReset sc.waits

/-- A bound, healthy transport used as a concrete evaluation point. -/
def tBase : Transport :=
  { isBound := true, isDestroyed := false, isReset := false,
    isAbortOnReset := false, canSendData := true, canRecvData := true,
    tsi := ⟨1, 100⟩, dport := 200, udpEncapUcastPort := 0, maxTpdu := 1500,
    peers := [], peersPending := [], rxBuffer := 0, rxBufferSize := 1500,
    allocCounter := 1, srcPacketsDiscarded := 0, srcCksumErrors := 0,
    isPendingRead := false, isEdgeTriggeredRecv := false }

/-- `tBase` with the sending side muted. -/
def tMuted : Transport := { tBase with canSendData := false }

/-- `tBase` marked reset with one pending peer. -/
def tReset : Transport :=
  { tBase with isReset := true, peersPending := [⟨9, 9⟩] }

/-- `tBase` with one peer pending delivery. -/
def tPend : Transport := { tBase with peersPending := [⟨7, 7⟩] }

/-- A non-blocking flag word with no FIN and no ERRQUEUE. -/
def flagsDW : Flags := { dontwait := true, errqueue := false, fin := false }

/-- A non-blocking flag word with both FIN and ERRQUEUE set. -/
def flagsEQ : Flags := { dontwait := true, errqueue := true, fin := true }

/-- A script whose only event is a closed-socket read. -/
def scEmptyRecv : Script :=
  { slot0 := none, timer0 := none, recvs := [.closed], flushes := [],
    waits := [], fuel := 4 }

/-- A script whose initial flush delivers one five-byte APDU and reports
the vector full. -/
def scFlushOne : Script :=
  { slot0 := none, timer0 := none, recvs := [],
    flushes := [{ apdus := [(⟨7, 7⟩, [5])], remainingPending := [],
                  filled := true }],
    waits := [], fuel := 4 }

/-- The outcome of `pgm_recvmsgv tBase 1 flagsDW scEmptyRecv`. -/
def resAgainBase : Result :=
  { status := .again, t := tBase, vector := [], bytesRead := 0,
    dataRead := 0, err := none }

/-- The outcome of `pgm_recvmsgv tPend 1 flagsDW scFlushOne`. -/
def resNormalOne : Result :=
  { status := .normal, t := tBase, vector := [.apdu ⟨7, 7⟩ [5]],
    bytesRead := 5, dataRead := 1, err := none }

/-- An ODATA frame addressed to `tBase` from an unknown TSI. -/
def fOdata : Frame :=
  { ptype := .odata, dport := 200, tsi := ⟨7, 7⟩, len := 10, tstamp := 5,
    srcAddr := 1, dstAddr := 2, dstIsMulticast := false }

/-- A peer-routed NAK about an unknown TSI (dport differs from the
transport source port, header sport matches the data port). -/
def fPeerNak : Frame :=
  { ptype := .nak, dport := 300, tsi := ⟨7, 200⟩, len := 10, tstamp := 5,
    srcAddr := 1, dstAddr := 2, dstIsMulticast := false }

/-- An upstream-routed NAK (dport equals the transport source port)
carrying the wrong session, read while `can_send_data` is false. -/
def pktUpstreamRejected : Pkt :=
  { parse := .ok,
    frame := { ptype := .nak, dport := 100, tsi := ⟨9, 200⟩, len := 10,
               tstamp := 0, srcAddr := 0, dstAddr := 0,
               dstIsMulticast := false },
    acc := true, hasPending := false }

/-- A completed poll outcome with the receive socket readable. -/
def wReady : WaitIn :=
  { infoFail := false, syscallFail := false, ready := 1,
    socketReadable := true, otherReadable := false }

/-- A completed poll outcome that timed out: no failure, nothing
readable. -/
def wTimeout : WaitIn :=
  { infoFail := false, syscallFail := false, ready := 0,
    socketReadable := false, otherReadable := false }

/-! Field-preservation helper lemmas. -/

theorem updatePeer_map_fst (ps : List (TSI × Peer)) (k : TSI)
    (f : Peer → Peer) :
    (updatePeer ps k f).map Prod.fst = ps.map Prod.fst := by
  induction ps with
  | nil => rfl
  | cons hd tl ih =>
      by_cases h : hd.1 = k <;> simp [updatePeer, h] at ih ⊢ <;> exact ih

theorem outDiscarded_rxBuffer (t : Transport) (slot : Option TSI) :
    (outDiscarded t slot).rxBuffer = t.rxBuffer := by
  cases slot with
  | some k => simp [outDiscarded]
  | none =>
      cases hcs : t.canSendData <;>
        simp [outDiscarded, bumpSourceDiscarded, hcs]

theorem outDiscarded_rxBufferSize (t : Transport) (slot : Option TSI) :
    (outDiscarded t slot).rxBufferSize = t.rxBufferSize := by
  cases slot with
  | some k => simp [outDiscarded]
  | none =>
      cases hcs : t.canSendData <;>
        simp [outDiscarded, bumpSourceDiscarded, hcs]

theorem outDiscarded_isReset (t : Transport) (slot : Option TSI) :
    (outDiscarded t slot).isReset = t.isReset := by
  cases slot with
  | some k => simp [outDiscarded]
  | none =>
      cases hcs : t.canSendData <;>
        simp [outDiscarded, bumpSourceDiscarded, hcs]

theorem outDiscarded_map_fst (t : Transport) (slot : Option TSI) :
    (outDiscarded t slot).peers.map Prod.fst = t.peers.map Prod.fst := by
  cases slot with
  | some k => simp [outDiscarded, updatePeer_map_fst]
  | none =>
      cases hcs : t.canSendData <;>
        simp [outDiscarded, bumpSourceDiscarded, hcs]

theorem outDiscarded_srcDiscarded (t : Transport) (slot : Option TSI) :
    (outDiscarded t slot).srcPacketsDiscarded =
      t.srcPacketsDiscarded +
        (if (slot.isNone && t.canSendData) = true then 1 else 0) := by
  cases slot with
  | some k => simp [outDiscarded]
  | none =>
      cases hcs : t.canSendData <;>
        simp [outDiscarded, bumpSourceDiscarded, hcs]

/-! Claim C3. -/

/-- Claim C3 (code bug): `recvskb` is meant to demand destination
recovery whenever the socket is UDP-encapsulated or the source address
is IPv6, returning -1 when no packet-info control message is present;
but the condition as written reads the family field through the address
of the `src_addr` pointer variable, so an IPv6 datagram on a raw socket
(with pointer bits that are not AF_INET6, here 48) and no packet-info
message is returned as valid (length 100) where the intended condition
returns -1. -/
theorem recvskb_dst_recovery_bug :
    recvskb 0 48 [] 100 = 100 ∧ recvskb_intended 0 AF_INET6 [] 100 = -1 := by
  exact ⟨by decide, by decide⟩

/-! Claim C4. -/

/-- Claim C4: `on_pgm` routes every parsed frame exactly by the claimed
rule: to the downstream handler iff its type is in
{ODATA, RDATA, NCF, SPM, POLL}; otherwise to the upstream handler iff
the header dport equals the transport source port and the type is
upstream- or peer-capable; otherwise to the peer handler iff the dport
differs and the type is peer-capable {NAK, SPMR}; otherwise discarded,
bumping the source-discard counter only when `can_send_data`. -/
theorem on_pgm_routes_by_rule (t : Transport) (f : Frame)
    (slot : Option TSI) (acc : Bool) :
    on_pgm t f slot acc =
      match claimClassify t f with
      | .downstream => on_downstream t f slot acc
      | .upstream => ((on_upstream t f acc).1, none, (on_upstream t f acc).2)
      | .peer => on_peer t f slot acc
      | .discard =>
          ((if t.canSendData then bumpSourceDiscarded t else t), slot, false)
      := by
  by_cases h : f.dport = t.tsi.sport <;>
    cases hp : f.ptype <;>
    simp [on_pgm, claimClassify, pgm_is_downstream, pgm_is_upstream,
      pgm_is_peer, h, hp]

/-! Claim C8. -/

/-- Claim C8 (amended): given the completed poll/select outcome,
`wait_for_event` returns EFAULT exactly when descriptor-set
construction or the syscall failed; otherwise it returns EAGAIN iff the
receive socket was readable, and EINTR iff the receive socket was not
readable — which covers both a readable non-socket descriptor and a
timed-out wait with nothing readable. -/
theorem wait_for_event_outcomes (w : WaitIn)
    (hready : 0 < w.ready ↔
      (w.socketReadable = true ∨ w.otherReadable = true)) :
    (wait_for_event w = EFAULT ↔
      (w.infoFail = true ∨ w.syscallFail = true)) ∧
    (w.infoFail = false → w.syscallFail = false →
      ((wait_for_event w = EAGAIN ↔ w.socketReadable = true) ∧
       (wait_for_event w = EINTR ↔ w.socketReadable = false))) := by
  obtain ⟨i, s, r, so, o⟩ := w
  cases i <;> cases s <;> cases so <;> cases o <;>
    simp_all [wait_for_event, EAGAIN, EINTR, EFAULT]

/-- Claim C8 as stated is false on the code: a timed-out wait (syscalls
succeeded, zero descriptors ready) makes `wait_for_event` return EINTR
although no non-socket descriptor was readable, contradicting the
claimed iff. -/
theorem wait_for_event_claim_cex :
    ¬ (wait_for_event wTimeout = EINTR ↔ wTimeout.otherReadable = true) := by
  decide

/-- Witness for the amended claim C8 at a concrete readable-socket
outcome. -/
theorem wait_for_event_outcomes_w :
    (0 < wReady.ready ↔
      (wReady.socketReadable = true ∨ wReady.otherReadable = true)) ∧
    ((wait_for_event wReady = EFAULT ↔
       (wReady.infoFail = true ∨ wReady.syscallFail = true)) ∧
     (wReady.infoFail = false → wReady.syscallFail = false →
       ((wait_for_event wReady = EAGAIN ↔ wReady.socketReadable = true) ∧
        (wait_for_event wReady = EINTR ↔ wReady.socketReadable = false)))) :=
  ⟨by decide, wait_for_event_outcomes wReady (by decide)⟩

/-! Claim C6. -/

/-- Claim C6: in the downstream handler, `rx_buffer` is replaced by a
freshly allocated buffer sized to `max_tpdu` exactly when the packet is
ODATA or RDATA and the peer's receive window retains it (the packet
passes the receiver and dport filters and `pgm_on_data` accepts it); in
every other case `rx_buffer` and its size are left in place. -/
theorem on_downstream_rx_buffer (t : Transport) (skb : Frame)
    (slot : Option TSI) (acc : Bool)
    (hfresh : t.rxBuffer < t.allocCounter) :
    ((on_downstream t skb slot acc).1.rxBuffer =
      if t.canRecvData = true ∧ skb.dport = t.dport ∧
         (skb.ptype = .odata ∨ skb.ptype = .rdata) ∧ acc = true
      then t.allocCounter else t.rxBuffer) ∧
    ((on_downstream t skb slot acc).1.rxBufferSize =
      if t.canRecvData = true ∧ skb.dport = t.dport ∧
         (skb.ptype = .odata ∨ skb.ptype = .rdata) ∧ acc = true
      then t.maxTpdu else t.rxBufferSize) ∧
    ((t.canRecvData = true ∧ skb.dport = t.dport ∧
      (skb.ptype = .odata ∨ skb.ptype = .rdata) ∧ acc = true) →
      (on_downstream t skb slot acc).1.rxBuffer ≠ t.rxBuffer) := by
  cases hcr : t.canRecvData with
  | false =>
      simp [on_downstream, hcr, outDiscarded_rxBuffer, outDiscarded_rxBufferSize]
  | true =>
      by_cases hdp : skb.dport = t.dport
      · cases hp : skb.ptype <;> cases acc <;>
          cases hl : lookupPeer t.peers skb.tsi <;>
          cases hm : skb.dstIsMulticast <;>
          simp_all [on_downstream, outDiscarded_rxBuffer,
            outDiscarded_rxBufferSize, pgm_new_peer] <;>
          omega
      · simp [on_downstream, hcr, hdp, outDiscarded_rxBuffer,
          outDiscarded_rxBufferSize]

/-- Witness for claim C6: an accepted ODATA frame from a new TSI makes
the handler install a fresh buffer of size `max_tpdu`. -/
theorem on_downstream_rx_buffer_w :
    tBase.rxBuffer < tBase.allocCounter ∧
    (((on_downstream tBase fOdata none true).1.rxBuffer =
       if tBase.canRecvData = true ∧ fOdata.dport = tBase.dport ∧
          (fOdata.ptype = .odata ∨ fOdata.ptype = .rdata) ∧ true = true
       then tBase.allocCounter else tBase.rxBuffer) ∧
     ((on_downstream tBase fOdata none true).1.rxBufferSize =
       if tBase.canRecvData = true ∧ fOdata.dport = tBase.dport ∧
          (fOdata.ptype = .odata ∨ fOdata.ptype = .rdata) ∧ true = true
       then tBase.maxTpdu else tBase.rxBufferSize) ∧
     ((tBase.canRecvData = true ∧ fOdata.dport = tBase.dport ∧
       (fOdata.ptype = .odata ∨ fOdata.ptype = .rdata) ∧ true = true) →
       (on_downstream tBase fOdata none true).1.rxBuffer ≠ tBase.rxBuffer)) :=
  ⟨by decide, on_downstream_rx_buffer tBase fOdata none true (by decide)⟩

/-! Claim C7. -/

/-- Claim C7: the peer mapping grows only in the downstream handler —
its domain gains exactly the packet's TSI when that TSI is unknown and
the receiver and dport filters pass, and is unchanged otherwise; the
peer handler only looks up, discarding packets about unknown TSIs
without touching the mapping, and the upstream handler never touches
the mapping at all. -/
theorem peer_mapping_growth (t : Transport) (skb : Frame)
    (slot : Option TSI) (acc : Bool) :
    ((on_downstream t skb slot acc).1.peers.map Prod.fst =
      if t.canRecvData = true ∧ skb.dport = t.dport ∧
         lookupPeer t.peers skb.tsi = none
      then skb.tsi :: t.peers.map Prod.fst
      else t.peers.map Prod.fst) ∧
    (t.canRecvData = true → skb.tsi.sport = t.dport →
      lookupPeer t.peers skb.tsi = none →
      on_peer t skb slot acc = (outDiscarded t none, none, false)) ∧
    ((on_peer t skb slot acc).1.peers.map Prod.fst =
      t.peers.map Prod.fst) ∧
    ((on_upstream t skb acc).1.peers = t.peers) := by
  refine ⟨?_, ?_, ?_, ?_⟩
  · cases hcr : t.canRecvData with
    | false => simp [on_downstream, hcr, outDiscarded_map_fst]
    | true =>
        by_cases hdp : skb.dport = t.dport
        · cases hp : skb.ptype <;> cases acc <;>
            cases hl : lookupPeer t.peers skb.tsi <;>
            cases hm : skb.dstIsMulticast <;>
            simp_all [on_downstream, outDiscarded_map_fst, pgm_new_peer,
              updatePeer_map_fst]
        · simp [on_downstream, hcr, hdp, outDiscarded_map_fst]
  · intro h1 h2 h3
    simp [on_peer, h1, h2, h3]
  · cases hcr : t.canRecvData with
    | false => simp [on_peer, hcr, outDiscarded_map_fst]
    | true =>
        by_cases hsp : skb.tsi.sport = t.dport
        · cases hl : lookupPeer t.peers skb.tsi <;>
            cases hp : skb.ptype <;> cases acc <;>
            simp_all [on_peer, outDiscarded_map_fst]
        · simp [on_peer, hcr, hsp, outDiscarded_map_fst]
  · cases hcs : t.canSendData <;>
      by_cases hsp : skb.tsi.sport = t.dport <;>
      by_cases hg : skb.tsi.gsi = t.tsi.gsi <;>
      cases hp : skb.ptype <;> cases acc <;>
      simp_all [on_upstream, bumpSourceDiscarded]

/-- Witness for claim C7: a downstream ODATA frame from a new TSI grows
the mapping by exactly that TSI; a peer-routed NAK about an unknown TSI
is discarded with the mapping untouched; the upstream handler leaves
the mapping alone. -/
theorem peer_mapping_growth_w :
    ((on_downstream tBase fOdata none true).1.peers.map Prod.fst =
      if tBase.canRecvData = true ∧ fOdata.dport = tBase.dport ∧
         lookupPeer tBase.peers fOdata.tsi = none
      then fOdata.tsi :: tBase.peers.map Prod.fst
      else tBase.peers.map Prod.fst) ∧
    (on_peer tBase fPeerNak none true =
      (outDiscarded tBase none, none, false)) ∧
    ((on_upstream tBase fOdata true).1.peers = tBase.peers) :=
  ⟨(peer_mapping_growth tBase fOdata none true).1,
   (peer_mapping_growth tBase fPeerNak none true).2.1 rfl rfl rfl,
   (peer_mapping_growth tBase fOdata none true).2.2.2⟩

/-! Claim C5. -/

theorem on_downstream_srcDiscarded (t : Transport) (skb : Frame)
    (slot : Option TSI) (acc : Bool) :
    (on_downstream t skb slot acc).1.srcPacketsDiscarded =
      t.srcPacketsDiscarded +
        (if ((!t.canRecvData || decide (skb.dport ≠ t.dport)) && slot.isNone &&
             t.canSendData) = true then 1 else 0) := by
  cases hcr : t.canRecvData with
  | false => simp [on_downstream, hcr, outDiscarded_srcDiscarded]
  | true =>
      by_cases hdp : skb.dport = t.dport
      · cases hp : skb.ptype <;> cases acc <;>
          cases hl : lookupPeer t.peers skb.tsi <;>
          cases hm : skb.dstIsMulticast <;>
          simp_all [on_downstream, outDiscarded_srcDiscarded, pgm_new_peer]
      · simp [on_downstream, hcr, hdp, outDiscarded_srcDiscarded]

theorem on_peer_srcDiscarded (t : Transport) (skb : Frame)
    (slot : Option TSI) (acc : Bool) :
    (on_peer t skb slot acc).1.srcPacketsDiscarded =
      t.srcPacketsDiscarded +
        (if (if !t.canRecvData || decide (skb.tsi.sport ≠ t.dport) then
               slot.isNone && t.canSendData
             else
               match lookupPeer t.peers skb.tsi with
               | none => t.canSendData
               | some _ => false) = true then 1 else 0) := by
  cases hcr : t.canRecvData with
  | false => simp [on_peer, hcr, outDiscarded_srcDiscarded]
  | true =>
      by_cases hsp : skb.tsi.sport = t.dport
      · cases hl : lookupPeer t.peers skb.tsi <;>
          cases hp : skb.ptype <;> cases acc <;>
          simp_all [on_peer, outDiscarded_srcDiscarded]
      · simp [on_peer, hcr, hsp, outDiscarded_srcDiscarded]

theorem on_upstream_srcDiscarded (t : Transport) (skb : Frame) (acc : Bool) :
    (on_upstream t skb acc).1.srcPacketsDiscarded =
      t.srcPacketsDiscarded +
        (if upstreamAccepts t skb acc = true then 0 else 1) := by
  cases hcs : t.canSendData <;>
    by_cases hsp : skb.tsi.sport = t.dport <;>
    by_cases hg : skb.tsi.gsi = t.tsi.gsi <;>
    cases hp : skb.ptype <;> cases acc <;>
    simp_all [on_upstream, upstreamAccepts, bumpSourceDiscarded]

theorem processPkt_srcDiscarded (t : Transport) (slot : Option TSI)
    (p : Pkt) :
    (processPkt t slot p).1.srcPacketsDiscarded =
      t.srcPacketsDiscarded +
        (if pktBumpsSourceDiscarded t slot p = true then 1 else 0) := by
  cases p with
  | mk parse frame acc hasPending =>
    cases parse with
    | badCksum =>
        cases hcs : t.canSendData <;>
          simp [processPkt, pktBumpsSourceDiscarded, bumpSourceDiscarded, hcs]
    | badOther =>
        cases hcs : t.canSendData <;>
          simp [processPkt, pktBumpsSourceDiscarded, bumpSourceDiscarded, hcs]
    | ok =>
      simp only [processPkt, pktBumpsSourceDiscarded, on_pgm]
      by_cases hds : pgm_is_downstream frame.ptype = true
      · simp [hds, on_downstream_srcDiscarded]
      · by_cases hdp : frame.dport = t.tsi.sport
        · by_cases hup : (pgm_is_upstream frame.ptype ||
              pgm_is_peer frame.ptype) = true
          · simp only [hds, hdp, hup]
            simp [on_upstream_srcDiscarded]
            cases upstreamAccepts t frame acc <;> simp
          · simp only [hds, hdp, hup]
            cases hcs : t.canSendData <;>
              simp_all [bumpSourceDiscarded]
        · by_cases hpr : pgm_is_peer frame.ptype = true
          · simp [hds, hdp, hpr, on_peer_srcDiscarded]
          · simp only [hds, hdp, hpr]
            cases hcs : t.canSendData <;>
              simp_all [bumpSourceDiscarded]

/-- Claim C5 (amended): over any run of frame processings, the
cumulative `SOURCE_PACKETS_DISCARDED` counter increases by exactly the
number of frames satisfying `pktBumpsSourceDiscarded` at their
processing point: parse failures and classifier discards count when
`can_send_data` is true, frames rejected by the upstream handler count
unconditionally, and frames rejected by the downstream or peer handler
count only when the dispatcher's source slot is empty at the rejection
point and `can_send_data` is true (otherwise the bound peer's receiver
counter is bumped instead). -/
theorem processRun_srcDiscarded (ps : List Pkt) :
    ∀ (t : Transport) (slot : Option TSI),
    (processRun t slot ps).1.srcPacketsDiscarded =
      t.srcPacketsDiscarded + countSourceBumps t slot ps := by
  induction ps with
  | nil => intro t slot; simp [processRun, countSourceBumps]
  | cons p ps ih =>
      intro t slot
      simp only [processRun, countSourceBumps]
      rw [ih, processPkt_srcDiscarded]
      omega

/-- Claim C5 as stated is false on the code: a NAK routed to the
upstream handler while `can_send_data` is false is rejected and still
increments `SOURCE_PACKETS_DISCARDED` (the upstream handler bumps it
unconditionally), whereas the claimed count — rejections while
`can_send_data` is true — is zero. -/
theorem processRun_srcDiscarded_claim_cex :
    (processRun tMuted none [pktUpstreamRejected]).1.srcPacketsDiscarded ≠
      tMuted.srcPacketsDiscarded +
        claimCountSourceBumps tMuted none [pktUpstreamRejected] := by
  decide

/-! Delivery-loop invariant lemmas. -/

theorem applyFlush_written_length (st : LoopSt) (f : FlushRes)
    (hlen : st.written.length = st.dataRead) :
    (applyFlush st f).written.length = (applyFlush st f).dataRead := by
  simp [applyFlush, hlen]

theorem applyFlush_apdu (st : LoopSt) (f : FlushRes)
    (hap : ∀ e ∈ st.written, entryIsApdu e = true) :
    ∀ e ∈ (applyFlush st f).written, entryIsApdu e = true := by
  intro e he
  simp only [applyFlush, List.mem_append, List.mem_map, Prod.exists] at he
  rcases he with h1 | ⟨a, b, _, rfl⟩
  · exact hap e h1
  · rfl

theorem length_le_sum_of_pos (l : List (TSI × List Nat))
    (h : ∀ a ∈ l, 0 < a.2.sum) :
    l.length ≤ (l.map (fun a => a.2.sum)).sum := by
  induction l with
  | nil => simp
  | cons a l ih =>
      simp only [List.length_cons, List.map_cons, List.sum_cons]
      have h1 := h a (List.mem_cons_self a l)
      have h2 := ih (fun b hb => h b (List.mem_cons_of_mem a hb))
      omega

theorem applyFlush_bytes (st : LoopSt) (f : FlushRes)
    (hf : flushPos f = true) (hb : st.dataRead ≤ st.bytesRead) :
    (applyFlush st f).dataRead ≤ (applyFlush st f).bytesRead := by
  have hls := length_le_sum_of_pos f.apdus
    (by simpa [flushPos, List.all_eq_true, decide_eq_true_eq] using hf)
  simp only [applyFlush]
  omega

theorem outPhase_spec (flags : Flags) (st : LoopSt) (res : Result)
    (h : outPhase flags st = some res) :
    res.dataRead = st.dataRead ∧ res.bytesRead = st.bytesRead ∧
    (res.status = .again → res.vector = st.written ∧ st.dataRead = 0) ∧
    (res.status = .normal → st.dataRead ≠ 0) ∧
    (res.status = .eof → st.t.isReset = true) ∧
    (flags.errqueue = false → res.vector = st.written) := by
  simp only [outPhase] at h
  by_cases hd : st.dataRead = 0 <;>
    cases hpr : st.t.isPendingRead <;>
    by_cases hr : st.t.isReset <;>
    cases hpp : st.t.peersPending <;>
    cases he : flags.errqueue <;>
    simp_all [pgm_set_reset_error] <;>
    (subst h; simp_all)

theorem on_upstream_isReset (t : Transport) (skb : Frame) (acc : Bool) :
    (on_upstream t skb acc).1.isReset = t.isReset := by
  cases hcs : t.canSendData <;>
    by_cases hsp : skb.tsi.sport = t.dport <;>
    by_cases hg : skb.tsi.gsi = t.tsi.gsi <;>
    cases hp : skb.ptype <;> cases acc <;>
    simp_all [on_upstream, bumpSourceDiscarded]

theorem on_peer_isReset (t : Transport) (skb : Frame) (slot : Option TSI)
    (acc : Bool) :
    (on_peer t skb slot acc).1.isReset = t.isReset := by
  cases hcr : t.canRecvData with
  | false => simp [on_peer, hcr, outDiscarded_isReset]
  | true =>
      by_cases hsp : skb.tsi.sport = t.dport
      · cases hl : lookupPeer t.peers skb.tsi <;>
          cases hp : skb.ptype <;> cases acc <;>
          simp_all [on_peer, outDiscarded_isReset]
      · simp [on_peer, hcr, hsp, outDiscarded_isReset]

theorem on_downstream_isReset (t : Transport) (skb : Frame)
    (slot : Option TSI) (acc : Bool) :
    (on_downstream t skb slot acc).1.isReset = t.isReset := by
  cases hcr : t.canRecvData with
  | false => simp [on_downstream, hcr, outDiscarded_isReset]
  | true =>
      by_cases hdp : skb.dport = t.dport
      · cases hp : skb.ptype <;> cases acc <;>
          cases hl : lookupPeer t.peers skb.tsi <;>
          cases hm : skb.dstIsMulticast <;>
          simp_all [on_downstream, outDiscarded_isReset, pgm_new_peer]
      · simp [on_downstream, hcr, hdp, outDiscarded_isReset]

theorem processPkt_isReset (t : Transport) (slot : Option TSI) (p : Pkt) :
    (processPkt t slot p).1.isReset = t.isReset := by
  cases p with
  | mk parse frame acc hasPending =>
    cases parse with
    | badCksum =>
        cases hcs : t.canSendData <;>
          simp [processPkt, bumpSourceDiscarded, hcs]
    | badOther =>
        cases hcs : t.canSendData <;>
          simp [processPkt, bumpSourceDiscarded, hcs]
    | ok =>
        simp only [processPkt, on_pgm]
        by_cases hds : pgm_is_downstream frame.ptype = true
        · simp [hds, on_downstream_isReset]
        · by_cases hdp : frame.dport = t.tsi.sport
          · by_cases hup : (pgm_is_upstream frame.ptype ||
                pgm_is_peer frame.ptype) = true
            · simp [hds, hdp, hup, on_upstream_isReset]
            · simp only [hds, hdp, hup]
              cases hcs : t.canSendData <;>
                simp_all [bumpSourceDiscarded]
          · by_cases hpr : pgm_is_peer frame.ptype = true
            · simp [hds, hdp, hpr, on_peer_isReset]
            · simp only [hds, hdp, hpr]
              cases hcs : t.canSendData <;>
                simp_all [bumpSourceDiscarded]

theorem runLoop_vec (flags : Flags) (msgLen : Nat) :
    ∀ (fuel : Nat) (ph : Phase) (st : LoopSt) (recvs : List RecvRes)
      (flushes : List FlushRes) (waits : List WaitRes) (res : Result),
      runLoop flags msgLen fuel ph st recvs flushes waits = some res →
      st.written.length = st.dataRead →
      (∀ e ∈ st.written, entryIsApdu e = true) →
      ((res.status = .again → res.vector = []) ∧
       (res.status = .normal → 0 < res.dataRead) ∧
       (flags.errqueue = false → ∀ e ∈ res.vector, entryIsApdu e = true)) := by
  intro fuel
  induction fuel with
  | zero =>
      intro ph st recvs flushes waits res h
      simp [runLoop] at h
  | succ fuel ih =>
      intro ph st recvs flushes waits res h hlen hap
      cases ph with
      | recvAgain =>
          cases recvs with
          | nil => simp [runLoop] at h
          | cons r recvs' =>
              cases r with
              | fail => exact ih _ _ _ _ _ _ h hlen hap
              | closed => exact ih _ _ _ _ _ _ h hlen hap
              | pkt len p =>
                  simp only [runLoop] at h
                  split at h
                  · split at h
                    · split at h
                      · exact ih _ _ _ _ _ _ h hlen hap
                      · exact ih _ _ _ _ _ _ h hlen hap
                    · exact ih _ _ _ _ _ _ h hlen hap
                  · exact ih _ _ _ _ _ _ h hlen hap
      | flushPending =>
          cases flushes with
          | nil =>
              simp only [runLoop] at h
              split at h
              · exact ih _ _ _ _ _ _ h hlen hap
              · simp at h
          | cons f flushes' =>
              simp only [runLoop] at h
              split at h
              · exact ih _ _ _ _ _ _ h hlen hap
              · split at h
                · exact ih _ _ _ _ _ _ h (applyFlush_written_length st f hlen)
                    (applyFlush_apdu st f hap)
                · exact ih _ _ _ _ _ _ h (applyFlush_written_length st f hlen)
                    (applyFlush_apdu st f hap)
      | checkRepeat =>
          simp only [runLoop] at h
          split at h
          · split at h
            · exact ih _ _ _ _ _ _ h hlen hap
            · exact ih _ _ _ _ _ _ h hlen hap
          · split at h
            · cases waits with
              | nil => simp at h
              | cons w waits' =>
                  cases w with
                  | again => exact ih _ _ _ _ _ _ h hlen hap
                  | intr eff => exact ih _ _ _ _ _ _ h hlen hap
                  | fault =>
                      rw [Option.some.injEq] at h
                      subst h
                      refine ⟨by simp, by simp, fun _ => hap⟩
            · exact ih _ _ _ _ _ _ h hlen hap
      | out =>
          have hs := outPhase_spec flags st res h
          refine ⟨?_, ?_, ?_⟩
          · intro ha
            rcases hs.2.2.1 ha with ⟨hv, hzero⟩
            rw [hv]
            exact List.length_eq_zero.mp (by rw [hlen, hzero])
          · intro hn
            have hne := hs.2.2.2.1 hn
            rw [hs.1]
            omega
          · intro he
            rw [hs.2.2.2.2.2 he]
            exact hap

theorem runLoop_bytes (flags : Flags) (msgLen : Nat) :
    ∀ (fuel : Nat) (ph : Phase) (st : LoopSt) (recvs : List RecvRes)
      (flushes : List FlushRes) (waits : List WaitRes) (res : Result),
      runLoop flags msgLen fuel ph st recvs flushes waits = some res →
      (∀ f ∈ flushes, flushPos f = true) →
      st.dataRead ≤ st.bytesRead →
      res.dataRead ≤ res.bytesRead := by
  intro fuel
  induction fuel with
  | zero =>
      intro ph st recvs flushes waits res h
      simp [runLoop] at h
  | succ fuel ih =>
      intro ph st recvs flushes waits res h hpos hb
      cases ph with
      | recvAgain =>
          cases recvs with
          | nil => simp [runLoop] at h
          | cons r recvs' =>
              cases r with
              | fail => exact ih _ _ _ _ _ _ h hpos hb
              | closed => exact ih _ _ _ _ _ _ h hpos hb
              | pkt len p =>
                  simp only [runLoop] at h
                  split at h
                  · split at h
                    · split at h
                      · exact ih _ _ _ _ _ _ h hpos hb
                      · exact ih _ _ _ _ _ _ h hpos hb
                    · exact ih _ _ _ _ _ _ h hpos hb
                  · exact ih _ _ _ _ _ _ h hpos hb
      | flushPending =>
          cases flushes with
          | nil =>
              simp only [runLoop] at h
              split at h
              · exact ih _ _ _ _ _ _ h hpos hb
              · simp at h
          | cons f flushes' =>
              have hf := hpos f (List.mem_cons_self f flushes')
              have hpos' : ∀ g ∈ flushes', flushPos g = true :=
                fun g hg => hpos g (List.mem_cons_of_mem f hg)
              simp only [runLoop] at h
              split at h
              · exact ih _ _ _ _ _ _ h hpos hb
              · split at h
                · exact ih _ _ _ _ _ _ h hpos' (applyFlush_bytes st f hf hb)
                · exact ih _ _ _ _ _ _ h hpos' (applyFlush_bytes st f hf hb)
      | checkRepeat =>
          simp only [runLoop] at h
          split at h
          · split at h
            · exact ih _ _ _ _ _ _ h hpos hb
            · exact ih _ _ _ _ _ _ h hpos hb
          · split at h
            · cases waits with
              | nil => simp at h
              | cons w waits' =>
                  cases w with
                  | again => exact ih _ _ _ _ _ _ h hpos hb
                  | intr eff => exact ih _ _ _ _ _ _ h hpos hb
                  | fault =>
                      rw [Option.some.injEq] at h
                      subst h
                      exact hb
            · exact ih _ _ _ _ _ _ h hpos hb
      | out =>
          have hs := outPhase_spec flags st res h
          rw [hs.1, hs.2.1]
          exact hb

theorem runLoop_no_eof (flags : Flags) (msgLen : Nat) :
    ∀ (fuel : Nat) (ph : Phase) (st : LoopSt) (recvs : List RecvRes)
      (flushes : List FlushRes) (waits : List WaitRes) (res : Result),
      runLoop flags msgLen fuel ph st recvs flushes waits = some res →
      st.t.isReset = false →
      waitsNoReset waits = true →
      res.status ≠ .eof := by
  intro fuel
  induction fuel with
  | zero =>
      intro ph st recvs flushes waits res h
      simp [runLoop] at h
  | succ fuel ih =>
      intro ph st recvs flushes waits res h hr hw
      cases ph with
      | recvAgain =>
          cases recvs with
          | nil => simp [runLoop] at h
          | cons r recvs' =>
              cases r with
              | fail => exact ih _ _ _ _ _ _ h hr hw
              | closed => exact ih _ _ _ _ _ _ h hr hw
              | pkt len p =>
                  simp only [runLoop] at h
                  have hr2 : (processPkt st.t st.slot p).1.isReset = false := by
                    rw [processPkt_isReset]; exact hr
                  split at h
                  · split at h
                    · split at h
                      · exact ih _ _ _ _ _ _ h hr2 hw
                      · exact ih _ _ _ _ _ _ h hr2 hw
                    · exact ih _ _ _ _ _ _ h hr2 hw
                  · exact ih _ _ _ _ _ _ h hr2 hw
      | flushPending =>
          cases flushes with
          | nil =>
              simp only [runLoop] at h
              split at h
              · exact ih _ _ _ _ _ _ h hr hw
              · simp at h
          | cons f flushes' =>
              simp only [runLoop] at h
              split at h
              · exact ih _ _ _ _ _ _ h hr hw
              · split at h
                · exact ih _ _ _ _ _ _ h hr hw
                · exact ih _ _ _ _ _ _ h hr hw
      | checkRepeat =>
          simp only [runLoop] at h
          split at h
          · split at h
            · exact ih _ _ _ _ _ _ h hr hw
            · exact ih _ _ _ _ _ _ h hr hw
          · split at h
            · cases waits with
              | nil => simp at h
              | cons w waits' =>
                  cases w with
                  | again =>
                      simp only [waitsNoReset, List.all_cons,
                        Bool.and_eq_true] at hw
                      exact ih _ _ _ _ _ _ h hr hw.2
                  | intr eff =>
                      simp only [waitsNoReset, List.all_cons, Bool.and_eq_true,
                        Bool.not_eq_true'] at hw
                      have hr2 : (applyTimer st.t eff).isReset = false := by
                        simp [applyTimer, hr, hw.1]
                      exact ih _ _ _ _ _ _ h hr2 hw.2
                  | fault =>
                      rw [Option.some.injEq] at h
                      subst h
                      simp
            · exact ih _ _ _ _ _ _ h hr hw
      | out =>
          have hs := outPhase_spec flags st res h
          intro he
          have htrue := hs.2.2.2.2.1 he
          rw [hr] at htrue
          exact Bool.false_ne_true htrue

theorem applyTimer0_isReset (t : Transport) (o : Option TimerEff)
    (hr : t.isReset = false)
    (ho : (match o with
           | some eff => !eff.setReset
           | none => true) = true) :
    (applyTimer0 t o).isReset = false := by
  cases o <;> simp_all [applyTimer0, applyTimer]

theorem recvmsgvLoop_no_eof (t : Transport) (msgLen : Nat) (flags : Flags)
    (sc : Script) (res : Result)
    (hr : t.isReset = false) (hsc : scriptNoReset sc = true)
    (h : recvmsgvLoop t msgLen flags sc = some res) :
    res.status ≠ .eof := by
  simp only [scriptNoReset, Bool.and_eq_true] at hsc
  have ht0 := applyTimer0_isReset t sc.timer0 hr hsc.1
  simp only [recvmsgvLoop] at h
  split at h
  · exact runLoop_no_eof flags msgLen _ _ _ _ _ _ _ h ht0 hsc.2
  · cases hfl : sc.flushes with
    | nil => simp [hfl] at h
    | cons f fl' =>
        simp only [hfl] at h
        split at h
        · have hs := outPhase_spec flags _ res h
          intro he
          have hx := hs.2.2.2.2.1 he
          simp only [applyFlush] at hx
          rw [ht0] at hx
          exact Bool.false_ne_true hx
        · exact runLoop_no_eof flags msgLen _ _ _ _ _ _ _ h ht0 hsc.2

theorem recvmsgvLoop_vec (t : Transport) (msgLen : Nat) (flags : Flags)
    (sc : Script) (res : Result)
    (h : recvmsgvLoop t msgLen flags sc = some res) :
    (res.status = .again → res.vector = []) ∧
    (res.status = .normal → 0 < res.dataRead) ∧
    (flags.errqueue = false → ∀ e ∈ res.vector, entryIsApdu e = true) := by
  simp only [recvmsgvLoop] at h
  split at h
  · exact runLoop_vec flags msgLen _ _ _ _ _ _ _ h rfl
      (fun e he => absurd he (List.not_mem_nil e))
  · cases hfl : sc.flushes with
    | nil => simp [hfl] at h
    | cons f fl' =>
        simp only [hfl] at h
        split at h
        · have hs := outPhase_spec flags _ res h
          have hlen := applyFlush_written_length
            { t := applyTimer0 t sc.timer0, slot := sc.slot0, bytesRead := 0,
              dataRead := 0, bytesReceived := 0, written := [],
              lenPos := false } f rfl
          have hap := applyFlush_apdu
            { t := applyTimer0 t sc.timer0, slot := sc.slot0, bytesRead := 0,
              dataRead := 0, bytesReceived := 0, written := [],
              lenPos := false } f
            (fun e he => absurd he (List.not_mem_nil e))
          refine ⟨?_, ?_, ?_⟩
          · intro ha
            rcases hs.2.2.1 ha with ⟨hv, hzero⟩
            rw [hv]
            exact List.length_eq_zero.mp (by rw [hlen, hzero])
          · intro hn
            have hne := hs.2.2.2.1 hn
            rw [hs.1]
            omega
          · intro he
            rw [hs.2.2.2.2.2 he]
            exact hap
        · exact runLoop_vec flags msgLen _ _ _ _ _ _ _ h
            (applyFlush_written_length _ f rfl)
            (applyFlush_apdu _ f (fun e he => absurd he (List.not_mem_nil e)))

theorem recvmsgvLoop_bytes (t : Transport) (msgLen : Nat) (flags : Flags)
    (sc : Script) (res : Result)
    (hpos : ∀ f ∈ sc.flushes, flushPos f = true)
    (h : recvmsgvLoop t msgLen flags sc = some res) :
    res.dataRead ≤ res.bytesRead := by
  simp only [recvmsgvLoop] at h
  split at h
  · exact runLoop_bytes flags msgLen _ _ _ _ _ _ _ h hpos (Nat.le_refl 0)
  · cases hfl : sc.flushes with
    | nil => simp [hfl] at h
    | cons f fl' =>
        have hf := hpos f (by rw [hfl]; exact List.mem_cons_self f fl')
        have hpos' : ∀ g ∈ fl', flushPos g = true :=
          fun g hg => hpos g (by rw [hfl]; exact List.mem_cons_of_mem f hg)
        simp only [hfl] at h
        split at h
        · have hs := outPhase_spec flags _ res h
          rw [hs.1, hs.2.1]
          exact applyFlush_bytes _ f hf (Nat.le_refl 0)
        · exact runLoop_bytes flags msgLen _ _ _ _ _ _ _ h hpos'
            (applyFlush_bytes _ f hf (Nat.le_refl 0))

/-- Dispatch of a completed `pgm_recvmsgv` call into its three shapes:
a failed precondition, the reset fast path, or the delivery-loop
body. -/
theorem recvmsgv_cases (t : Transport) (msgLen : Nat) (flags : Flags)
    (sc : Script) (res : Result)
    (h : pgm_recvmsgv t msgLen flags sc = some res) :
    (res.status = .error ∧ res.vector = []) ∨
    (res.status = .eof ∧ t.isReset = true ∧
      (flags.errqueue = false → res.vector = [])) ∨
    (t.isReset = false ∧ recvmsgvLoop t msgLen flags sc = some res) := by
  simp only [pgm_recvmsgv] at h
  split at h
  · rw [Option.some.injEq] at h
    subst h
    exact Or.inl ⟨rfl, rfl⟩
  · split at h
    next hrt =>
      cases hpp : t.peersPending with
      | nil => simp [hpp] at h
      | cons key ks =>
          simp only [hpp] at h
          rw [Option.some.injEq] at h
          subst h
          refine Or.inr (Or.inl ⟨rfl, hrt, ?_⟩)
          intro he
          simp [he]
    next hrt =>
      refine Or.inr (Or.inr ⟨?_, h⟩)
      simpa using hrt

theorem recvmsgv_no_eof (t : Transport) (msgLen : Nat) (flags : Flags)
    (sc : Script) (res : Result)
    (hr : t.isReset = false) (hsc : scriptNoReset sc = true)
    (h : pgm_recvmsgv t msgLen flags sc = some res) :
    res.status ≠ .eof := by
  rcases recvmsgv_cases t msgLen flags sc res h with h1 | h1 | h1
  · rw [h1.1]; simp
  · rw [h1.2.1] at hr; exact absurd hr (by simp)
  · exact recvmsgvLoop_no_eof t msgLen flags sc res hr hsc h1.2

theorem recvmsgv_no_desc (t : Transport) (msgLen : Nat) (flags : Flags)
    (sc : Script) (res : Result)
    (he : flags.errqueue = false)
    (h : pgm_recvmsgv t msgLen flags sc = some res) :
    ∀ e ∈ res.vector, entryIsApdu e = true := by
  rcases recvmsgv_cases t msgLen flags sc res h with h1 | h1 | h1
  · rw [h1.2]; exact fun e he' => absurd he' (List.not_mem_nil e)
  · rw [h1.2.2 he]; exact fun e he' => absurd he' (List.not_mem_nil e)
  · exact (recvmsgvLoop_vec t msgLen flags sc res h1.2).2.2 he

/-! Claim C1. -/

/-- Claim C1: for every transport satisfying the delivery preconditions
and every vector, flags and collaborator script whose flushed APDUs are
non-empty: a call returning Normal delivered at least one APDU
(`data_read > 0`) with `bytes_read > 0`, and a call returning Again
wrote no APDU entry into the caller's vector. -/
theorem recvmsgv_normal_again (t : Transport) (msgLen : Nat) (flags : Flags)
    (sc : Script) (res : Result)
    (hb : t.isBound = true) (hd : t.isDestroyed = false)
    (hpos : ∀ f ∈ sc.flushes, flushPos f = true)
    (h : pgm_recvmsgv t msgLen flags sc = some res) :
    (res.status = .normal → 0 < res.dataRead ∧ 0 < res.bytesRead) ∧
    (res.status = .again → res.vector = []) := by
  rcases recvmsgv_cases t msgLen flags sc res h with h1 | h1 | h1
  · rw [h1.1]; simp
  · rw [h1.1]; simp
  · have hv := recvmsgvLoop_vec t msgLen flags sc res h1.2
    have hbt := recvmsgvLoop_bytes t msgLen flags sc res hpos h1.2
    refine ⟨fun hn => ⟨hv.2.1 hn, ?_⟩, hv.1⟩
    have hdr := hv.2.1 hn
    omega

/-- Witness for claim C1: a bound transport reading a closed socket in
non-blocking mode returns Again with an empty vector. -/
theorem recvmsgv_normal_again_w :
    tBase.isBound = true ∧ tBase.isDestroyed = false ∧
    (∀ f ∈ scEmptyRecv.flushes, flushPos f = true) ∧
    pgm_recvmsgv tBase 1 flagsDW scEmptyRecv = some resAgainBase ∧
    ((resAgainBase.status = .normal →
        0 < resAgainBase.dataRead ∧ 0 < resAgainBase.bytesRead) ∧
     (resAgainBase.status = .again → resAgainBase.vector = [])) :=
  ⟨rfl, rfl, by decide, by decide,
   recvmsgv_normal_again tBase 1 flagsDW scEmptyRecv resAgainBase rfl rfl
     (by decide) (by decide)⟩

/-! Claim C2. -/

/-- Claim C2: a delivery call entered with `is_reset` set (preconditions
held, `peers_pending` headed by a peer) returns Eof; with ERRQUEUE set
a reset descriptor for that first pending peer is written into the
caller's vector, otherwise a ConnReset error naming that peer is
produced; and when `is_abort_on_reset` is false the reset flag is
cleared, so an immediately following call whose collaborators do not
raise a new reset cannot report Eof again. -/
theorem recvmsgv_reset_fast_path (t : Transport) (msgLen : Nat)
    (flags : Flags) (sc : Script) (key : TSI) (rest : List TSI)
    (hb : t.isBound = true) (hd : t.isDestroyed = false)
    (hr : t.isReset = true) (hp : t.peersPending = key :: rest) :
    ∃ res : Result, pgm_recvmsgv t msgLen flags sc = some res ∧
      res.status = .eof ∧
      (flags.errqueue = true → res.vector = [.resetDesc key]) ∧
      (flags.errqueue = false → res.err = some (.connReset key)) ∧
      (t.isAbortOnReset = false →
        res.t.isReset = false ∧
        ∀ (sc2 : Script) (msgLen2 : Nat) (flags2 : Flags) (res2 : Result),
          scriptNoReset sc2 = true →
          pgm_recvmsgv res.t msgLen2 flags2 sc2 = some res2 →
          res2.status ≠ .eof) := by
  refine ⟨{ status := .eof,
            t := if !t.isAbortOnReset then { t with isReset := !t.isReset }
                 else t,
            vector := if flags.errqueue then pgm_set_reset_error [] key
                      else [],
            bytesRead := 0, dataRead := 0,
            err := if flags.errqueue then none
                   else some (RecvGError.connReset key) },
          ?_, rfl, ?_, ?_, ?_⟩
  · simp [pgm_recvmsgv, hb, hd, hr, hp]
  · intro he
    simp [he, pgm_set_reset_error]
  · intro he
    simp [he]
  · intro ha
    refine ⟨by simp [ha, hr], ?_⟩
    intro sc2 msgLen2 flags2 res2 hsc2 h2
    refine recvmsgv_no_eof _ msgLen2 flags2 sc2 res2 ?_ hsc2 h2
    simp [ha, hr]

/-- Witness for claim C2 at a concrete reset transport. -/
theorem recvmsgv_reset_fast_path_w :
    ∃ res : Result, pgm_recvmsgv tReset 1 flagsDW scEmptyRecv = some res ∧
      res.status = .eof ∧
      (flagsDW.errqueue = true → res.vector = [.resetDesc ⟨9, 9⟩]) ∧
      (flagsDW.errqueue = false → res.err = some (.connReset ⟨9, 9⟩)) ∧
      (tReset.isAbortOnReset = false →
        res.t.isReset = false ∧
        ∀ (sc2 : Script) (msgLen2 : Nat) (flags2 : Flags) (res2 : Result),
          scriptNoReset sc2 = true →
          pgm_recvmsgv res.t msgLen2 flags2 sc2 = some res2 →
          res2.status ≠ .eof) :=
  recvmsgv_reset_fast_path tReset 1 flagsDW scEmptyRecv ⟨9, 9⟩ [] rfl rfl
    rfl rfl

/-! Claim C10. -/

/-- Claim C10: `pgm_recvfrom` (and `pgm_recv`) behave identically
whether or not the FIN and ERRQUEUE bits are set — both are cleared
before recursing into `pgm_recvmsg` — and the recursed call never
materialises a reset descriptor in the message vector. -/
theorem recvfrom_ignores_fin_errqueue (t : Transport) (len : Nat)
    (flags : Flags) (sc : Script) :
    pgm_recvfrom t len flags sc = pgm_recvfrom t len (stripFlags flags) sc ∧
    pgm_recv t len flags sc = pgm_recv t len (stripFlags flags) sc ∧
    (∀ r : Result, pgm_recvmsg t (stripFlags flags) sc = some r →
      ∀ e ∈ r.vector, entryIsApdu e = true) := by
  refine ⟨rfl, rfl, ?_⟩
  intro r hr
  exact recvmsgv_no_desc t 1 (stripFlags flags) sc r rfl hr

/-- Witness for claim C10: with FIN and ERRQUEUE set the call equals
the stripped call, and the delivered vector holds only APDUs. -/
theorem recvfrom_ignores_fin_errqueue_w :
    pgm_recvfrom tPend 3 flagsEQ scFlushOne =
      pgm_recvfrom tPend 3 (stripFlags flagsEQ) scFlushOne ∧
    (∀ e ∈ resNormalOne.vector, entryIsApdu e = true) :=
  ⟨(recvfrom_ignores_fin_errqueue tPend 3 flagsEQ scFlushOne).1,
   (recvfrom_ignores_fin_errqueue tPend 3 flagsEQ scFlushOne).2.2
     resNormalOne (by decide)⟩

/-! Claim C9. -/

theorem copyLoop_stop (skbs : List Nat) (len n : Nat) (tr : Bool) :
    copyLoop skbs len n n tr = some (n, n, tr) := by
  cases skbs <;> simp [copyLoop]

theorem copyLoop_truncates : ∀ (skbs : List Nat) (len bytesCopied : Nat),
    bytesCopied ≤ len → len < bytesCopied + skbs.sum →
    copyLoop skbs len (bytesCopied + skbs.sum) bytesCopied false =
      some (len, len, true) := by
  intro skbs
  induction skbs with
  | nil =>
      intro len bc h1 h2
      simp only [List.sum_nil] at h2
      omega
  | cons l rest ih =>
      intro len bc h1 h2
      simp only [List.sum_cons] at h2 ⊢
      have hlt : bc < bc + (l + rest.sum) := by omega
      rw [copyLoop, if_pos hlt]
      by_cases h3 : len < bc + l
      · rw [if_pos h3]
        have hbl : bc + (len - bc) = len := by omega
        rw [hbl, copyLoop_stop]
      · rw [if_neg h3]
        have heq : bc + (l + rest.sum) = bc + l + rest.sum := by omega
        rw [heq]
        exact ih len (bc + l) (by omega) (by omega)

/-- Claim C9: when the underlying `pgm_recvmsg` delivers an APDU larger
than the caller's buffer of length `len`, `pgm_recvfrom` truncates it,
copies exactly `len` bytes, reports `bytes_read = len`, logs the
truncation, and still returns Normal. -/
theorem recvfrom_truncation (t : Transport) (len : Nat) (flags : Flags)
    (sc : Script) (r : Result) (key : TSI) (lens : List Nat)
    (rest : List MsgEntry)
    (hmsg : pgm_recvmsg t (stripFlags flags) sc = some r)
    (hst : r.status = .normal)
    (hvec : r.vector = .apdu key lens :: rest)
    (hbytes : r.bytesRead = lens.sum)
    (htrunc : len < lens.sum) :
    pgm_recvfrom t len flags sc =
      some { status := .normal, bytesRead := len, fromTsi := some key,
             truncated := true, t := r.t } := by
  unfold pgm_recvfrom
  rw [hmsg]
  have hcl : copyLoop lens len (0 + lens.sum) 0 false =
      some (len, len, true) :=
    copyLoop_truncates lens len 0 (Nat.zero_le len) (by omega)
  rw [Nat.zero_add] at hcl
  simp [hst, hvec, hbytes, hcl]

/-- Witness for claim C9: a five-byte APDU delivered into a three-byte
buffer yields Normal with three bytes copied and the truncation
logged. -/
theorem recvfrom_truncation_w :
    pgm_recvmsg tPend (stripFlags flagsDW) scFlushOne = some resNormalOne ∧
    pgm_recvfrom tPend 3 flagsDW scFlushOne =
      some { status := .normal, bytesRead := 3, fromTsi := some ⟨7, 7⟩,
             truncated := true, t := resNormalOne.t } :=
  ⟨by decide,
   recvfrom_truncation tPend 3 flagsDW scFlushOne resNormalOne ⟨7, 7⟩ [5]
     [] (by decide) rfl rfl (by decide) (by decide)⟩

end OpenPgm
